import Mathlib

/-!
Shallow embedding of the token issuance and tracking subsystem of
`app/fastapi_app/auth.py` (with the login route of `app/fastapi_app/routes.py`
and the user-configuration shape of `app/fastapi_app/config.py`).

Timestamps are modelled as `Int` (seconds); all mutable module state
(`_active_tokens`) is threaded explicitly.  Python dicts are modelled as
insertion-ordered association lists, with insertion that overwrites in place
(Python 3.7+ dict semantics).  The external `jose` JWT library and the
`hashlib` fingerprint are modelled from their contracts (see `JWT` and
`hashToken` below); everything else is translated from the source.
-/

namespace SmartCover

/-! ### Python dict model: insertion-ordered association lists -/

/-- Lookup in an insertion-ordered association list (Python `d.get(k)` /
`d[k]`). -/
def findVal {α β : Type} [DecidableEq α] (k : α) : List (α × β) → Option β
  | [] => none
  | (k', v) :: rest => if k' = k then some v else findVal k rest

/-- Insertion into an insertion-ordered association list (Python
`d[k] = v`): overwrites in place if the key exists, else appends. -/
def dictInsert {α β : Type} [DecidableEq α] (k : α) (v : β) :
    List (α × β) → List (α × β)
  | [] => [(k, v)]
  | (k', v') :: rest =>
      if k' = k then (k, v) :: rest else (k', v') :: dictInsert k v rest

/-! ### JWT model

The source signs and verifies tokens with the external `python-jose` library
(`jwt.encode` / `jwt.decode`).  We model a signed token as its claim set
together with the key it was signed with; `jwtDecode` models the library
contract: decoding succeeds exactly when the presented key matches the
signing key, and — when an `exp` claim is present — the expiry has not
elapsed (`python-jose` raises `ExpiredSignatureError`, a `JWTError`, when
`exp < now`). -/

/-- The claim set `to_encode` built by `create_access_token`; `get`-able
claims are `Option`-valued because `payload.get(...)` may be absent. -/
structure JWTPayload where
  sub : Option String
  exp : Option Int
  iat : Option Int
  jti : String
  api_name : Option String
deriving DecidableEq, Repr

/-- A signed token: claims plus signing key (models the `jose` signature). -/
structure JWT where
  payload : JWTPayload
  key : String
deriving DecidableEq, Repr

inductive JWTError where
  | signature
  | expired
deriving DecidableEq, Repr

/-- Error text of the two `jose` exceptions observed through `str(e)`. -/
def jwtErrorMsg : JWTError → String
  | .signature => "Signature verification failed."
  | .expired => "Signature has expired."

/-- Model of `jose.jwt.decode(token, key, algorithms=[...])` at time `now`. -/
def jwtDecode (token : JWT) (key : String) (now : Int) :
    Except JWTError JWTPayload :=
  if token.key = key then
    match token.payload.exp with
    | some e => if e < now then .error .expired else .ok token.payload
    | none => .ok token.payload
  else .error .signature

/-- `_hash_token`: the truncated SHA-256 fingerprint computed via the
external `hashlib` library, modelled per its collision-resistance contract
as an injective map — the fingerprint is identified with the token itself. -/
def hashToken (t : JWT) : JWT := t

/-! ### Configuration (`config.py` user records, `auth.py:get_user_config`) -/

/-- The per-user configuration dict: every key may be absent, matching the
`.get(key, default)` accesses in the source. -/
structure UserDict where
  password : Option String
  token_limit : Option Int
  enabled : Option Bool
deriving DecidableEq, Repr

/-- Python truthiness of a credential dict: `if not user_config:` tests the
dict itself, so the empty dict — no keys present, i.e. every field absent —
is falsy and rejected exactly like `None`. -/
def UserDict.pyFalsy (d : UserDict) : Bool :=
  d.password.isNone && d.token_limit.isNone && d.enabled.isNone

/-- An entry of `API_USERS`: either the legacy bare-password string or the
full dict shape. -/
inductive UserEntry where
  | legacy (password : String)
  | full (d : UserDict)
deriving DecidableEq, Repr

/-- Configuration surface consumed by `auth.py`: `JWT_SECRET_KEY`,
`JWT_ACCESS_TOKEN_EXPIRE_MINUTES` and `API_USERS`. -/
structure Config where
  secretKey : String
  expireMinutes : Nat
  apiUsers : List (String × UserEntry)
deriving DecidableEq, Repr

/-- `get_user_config(username)`: resolves a user, normalizing the legacy
bare-string form to `{password, token_limit: 0, enabled: True}`. -/
def getUserConfig (cfg : Config) (username : String) : Option UserDict :=
  match findVal username cfg.apiUsers with
  | none => none
  | some (.legacy pwd) => some ⟨some pwd, some 0, some true⟩
  | some (.full d) => some d

/-! ### Token registry state (`_active_tokens`) -/

/-- A registry record, the inner dict stored by `_register_token`. -/
structure TokenInfo where
  api_name : String
  expiry : Int
  created_at : Int
  token : JWT
deriving DecidableEq, Repr

/-- `_active_tokens`: username → (fingerprint → record), both levels
insertion-ordered dicts. -/
def Registry : Type := List (String × List (JWT × TokenInfo))

instance : DecidableEq Registry := by
  unfold Registry
  infer_instance

/-- `_cleanup_expired_tokens(username)`: drop the user's records whose
`expiry` is not strictly in the future; no-op when the user is absent. -/
def cleanupExpiredTokens (now : Int) (username : String) (reg : Registry) :
    Registry :=
  match findVal username reg with
  | none => reg
  | some toks =>
      dictInsert username (toks.filter fun p => now < p.2.expiry) reg

/-- `_count_active_tokens(username)`: sweep, then count survivors.  Returns
the count together with the post-sweep registry (the Python function
mutates module state). -/
def countActiveTokens (now : Int) (username : String) (reg : Registry) :
    Nat × Registry :=
  let reg' := cleanupExpiredTokens now username reg
  (((findVal username reg').getD []).length, reg')

/-- Python `s.split("_")` on the character list of `s`: split at every
underscore, keeping empty fields. -/
def pySplitUnderscore : List Char → List (List Char)
  | [] => [[]]
  | c :: rest =>
      match pySplitUnderscore rest with
      | [] => [[]]
      | hd :: tl => if c = '_' then [] :: hd :: tl else (c :: hd) :: tl

/-- Python `s.startswith("API_")` on the character list of `s`. -/
def startsWithAPI : List Char → Bool
  | 'A' :: 'P' :: 'I' :: '_' :: _ => true
  | _ => false

/-- Decimal digit value of a character, if any. -/
def digitVal (c : Char) : Option Nat :=
  if 48 ≤ c.toNat ∧ c.toNat ≤ 57 then some (c.toNat - 48) else none

/-- Accumulating parse of a digit string. -/
def digitsToNatAux : Nat → List Char → Option Nat
  | acc, [] => some acc
  | acc, c :: rest =>
      match digitVal c with
      | some d => digitsToNatAux (acc * 10 + d) rest
      | none => none

/-- Python `int(s)` restricted to the nonnegative decimal digit strings the
issuer's slot names produce (`ValueError` is `none`); the sign, whitespace
and digit-separator forms `int` also accepts cannot arise from a split at
underscores of an issued slot name. -/
def pyInt? : List Char → Option Nat
  | [] => none
  | l => digitsToNatAux 0 l

/-- Parse of an `api_name` entry in `_get_next_api_name`'s scan:
`int(api_name.split("_")[1])` guarded by `startswith("API_")`, with
`ValueError` and `IndexError` swallowed. -/
def apiNameNum (api_name : String) : Option Nat :=
  if startsWithAPI api_name.data then
    match (pySplitUnderscore api_name.data)[1]? with
    | some s => pyInt? s
    | none => none
  else none

/-- The `used_numbers` set of `_get_next_api_name`, as the list of parsed
slot numbers of a user's (post-sweep) records. -/
def usedNumbers (toks : List (JWT × TokenInfo)) : List Nat :=
  toks.filterMap fun p => apiNameNum p.2.api_name

/-- The `for i in range(1, 100)` scan: first element of `l` not in `used`. -/
def firstAvailable (used : List Nat) : List Nat → Option Nat
  | [] => none
  | i :: rest => if i ∈ used then firstAvailable used rest else some i

/-- `_get_next_api_name(username)`: sweep, then assign the lowest-numbered
free slot `API_1 … API_99`, falling back to `API_<count+1>` past 99. -/
def getNextApiName (now : Int) (username : String) (reg : Registry) :
    String × Registry :=
  let reg' := cleanupExpiredTokens now username reg
  match findVal username reg' with
  | none => ("API_1", reg')
  | some toks =>
      let used := usedNumbers toks
      match firstAvailable used (List.range' 1 99) with
      | some i => ("API_" ++ toString i, reg')
      | none => ("API_" ++ toString (used.dedup.length + 1), reg')

/-- `_register_token(username, token, expiry, api_name)` at creation time
`now` (the source stamps `created_at = datetime.now(...)`). -/
def registerToken (username : String) (token : JWT) (expiry : Int)
    (api_name : String) (now : Int) (reg : Registry) : Registry :=
  let toks := (findVal username reg).getD []
  dictInsert username
    (dictInsert (hashToken token)
      { api_name := api_name, expiry := expiry, created_at := now,
        token := token } toks)
    reg

/-- `get_token_api_name(token)`: scan every user's bucket (no sweep) for the
fingerprint and return its `api_name`. -/
def getTokenApiName (token : JWT) (reg : Registry) : Option String :=
  reg.findSome? fun p => (findVal (hashToken token) p.2).map (·.api_name)

/-! ### Duration formatting (`_format_duration`) -/

/-- `_format_duration(seconds)`: translated from the source. -/
def formatDuration (seconds : Int) : String :=
  if seconds ≤ 0 then "expired"
  else
    let s := seconds.toNat
    let days := s / 86400
    let hours := (s % 86400) / 3600
    let minutes := (s % 3600) / 60
    let parts :=
      (if days > 0 then [toString days ++ "d"] else []) ++
      (if hours > 0 then [toString hours ++ "h"] else []) ++
      (if minutes > 0 then [toString minutes ++ "m"] else [])
    if parts.isEmpty then "<1m" else String.intercalate " " parts

/-! ### Listing, status, issuance, verification, introspection -/

/-- One element of the `get_user_tokens` result list. -/
structure UserTokenEntry where
  api_name : String
  token : JWT
  created_at : Int
  expires_at : Int
  expires_in_seconds : Nat
  expires_in_human : String
deriving DecidableEq, Repr

/-- `get_user_tokens(username)`: sweep, render each surviving record, sort
by `api_name` (plain string order). -/
def getUserTokens (now : Int) (username : String) (reg : Registry) :
    List UserTokenEntry × Registry :=
  let reg' := cleanupExpiredTokens now username reg
  match findVal username reg' with
  | none => ([], reg')
  | some toks =>
      let entries := toks.map fun p =>
        let expiry := p.2.expiry
        let eis := (expiry - now).toNat
        { api_name := p.2.api_name, token := p.2.token,
          created_at := p.2.created_at, expires_at := expiry,
          expires_in_seconds := eis,
          expires_in_human := formatDuration (eis : Int) : UserTokenEntry }
      (entries.mergeSort (fun a b => a.api_name ≤ b.api_name), reg')

/-- Numeric-or-"unlimited" field of the status response. -/
inductive NumOrUnlimited where
  | num (n : Int)
  | unlimited
deriving DecidableEq, Repr

/-- The success shape of `get_user_token_status`. -/
structure TokenStatus where
  username : String
  active_tokens : Nat
  token_limit : NumOrUnlimited
  remaining : NumOrUnlimited
deriving DecidableEq, Repr

/-- `get_user_token_status(username)`: sweep, then — unless the user is
absent or the resolved dict is falsy (`if not user_config:`) — report
counts, with the `"unlimited"` sentinel when the configured limit is not
positive.  The `{"error": "User not found"}` dict is the `.error` branch. -/
def getUserTokenStatus (cfg : Config) (now : Int) (username : String)
    (reg : Registry) : Except String TokenStatus × Registry :=
  let reg' := cleanupExpiredTokens now username reg
  match getUserConfig cfg username with
  | none => (.error "User not found", reg')
  | some uc =>
      if uc.pyFalsy then (.error "User not found", reg')
      else
        let token_limit := uc.token_limit.getD 0
        let active_count := ((findVal username reg').getD []).length
        (.ok { username := username, active_tokens := active_count,
               token_limit :=
                 if token_limit > 0 then .num token_limit else .unlimited,
               remaining :=
                 if token_limit > 0 then .num (token_limit - active_count)
                 else .unlimited }, reg')

/-- The `HTTPException` shape raised by the auth module. -/
structure HTTPError where
  status_code : Nat
  detail : String
deriving DecidableEq, Repr

/-- The 429 detail f-string of `create_access_token`. -/
def rateLimitedDetail (active_count : Nat) (token_limit : Int) : String :=
  "Token limit reached. You have " ++ toString active_count ++
  " active token(s). Maximum allowed: " ++ toString token_limit ++
  ". Wait for existing tokens to expire."

/-- Steps 4–8 of `create_access_token`, after the limit check: slot
assignment, expiry computation, minting and registration.  `jti` stands in
for `secrets.token_hex(16)`. -/
def mintAndRegister (cfg : Config) (now : Int) (jti : String)
    (username : String) (reg : Registry) :
    Except HTTPError (JWT × Nat × String) × Registry :=
  let (api_name, reg₂) := getNextApiName now username reg
  let expiresInSeconds := cfg.expireMinutes * 60
  let expire := now + (expiresInSeconds : Int)
  let token : JWT :=
    { payload := { sub := some username, exp := some expire, iat := some now,
                   jti := jti, api_name := some api_name },
      key := cfg.secretKey }
  let reg₃ := registerToken username token expire api_name now reg₂
  (.ok (token, expiresInSeconds, api_name), reg₃)

/-- `create_access_token(username)`: resolve the user — rejecting a missing
or falsy credential dict (`if not user_config:`) with 401 — enforce the
token limit when positive, then mint and register.  The registry is
returned in every branch because the sweep inside `_count_active_tokens`
mutates module state even when the request is then rejected. -/
def createAccessToken (cfg : Config) (now : Int) (jti : String)
    (username : String) (reg : Registry) :
    Except HTTPError (JWT × Nat × String) × Registry :=
  match getUserConfig cfg username with
  | none => (.error ⟨401, "User not found"⟩, reg)
  | some uc =>
      if uc.pyFalsy then (.error ⟨401, "User not found"⟩, reg)
      else
        let token_limit := uc.token_limit.getD 0
        if token_limit > 0 then
          let (active_count, reg₁) := countActiveTokens now username reg
          if token_limit ≤ (active_count : Int) then
            (.error ⟨429, rateLimitedDetail active_count token_limit⟩, reg₁)
          else mintAndRegister cfg now jti username reg₁
        else mintAndRegister cfg now jti username reg

/-- `verify_credentials(username, password)`. -/
def verifyCredentials (cfg : Config) (username password : String) : Bool :=
  match getUserConfig cfg username with
  | none => false
  | some uc =>
      if !(uc.enabled.getD true) then false
      else
        match uc.password with
        | none => false
        | some stored => stored == password

/-- The `credentials_exception` of `get_current_user`. -/
def credentialsException : HTTPError := ⟨401, "Invalid or expired token"⟩

/-- `get_current_user(credentials)`: decode and validate the bearer token,
then re-check the subject's configuration — including the `enabled` flag —
on every call. -/
def getCurrentUser (cfg : Config) (now : Int) (token : JWT) :
    Except HTTPError String :=
  match jwtDecode token cfg.secretKey now with
  | .error _ => .error credentialsException
  | .ok payload =>
      match payload.sub with
      | none => .error credentialsException
      | some username =>
          match getUserConfig cfg username with
          | none => .error credentialsException
          | some uc =>
              if !(uc.enabled.getD true) then
                .error ⟨401, "User account is disabled"⟩
              else .ok username

/-- The two shapes returned by `get_token_info`. -/
inductive TokenInfoResult where
  | valid (username : Option String) (api_name : Option String)
      (issued_at : Option Int) (expires_at : Int)
      (expires_in_seconds : Nat) (expires_in_human : String)
  | invalid (error : String)
deriving DecidableEq, Repr

/-- `get_token_info(token)`: decode (catching `JWTError` into the
`valid: False` shape), resolve `api_name` from the claims with the registry
fallback when the claim is missing or empty (Python falsiness), and render
expiry data.  The `none` result models the uncaught `TypeError` from
`datetime.fromtimestamp(None)` when the decoded payload has no `exp`
claim; `issued_at` is `None` whenever `iat` is absent or `0` (falsy). -/
def getTokenInfo (cfg : Config) (now : Int) (token : JWT) (reg : Registry) :
    Option TokenInfoResult :=
  match jwtDecode token cfg.secretKey now with
  | .error e => some (.invalid (jwtErrorMsg e))
  | .ok payload =>
      match payload.exp with
      | none => none
      | some exp_ts =>
          let api_name :=
            match payload.api_name with
            | some a => if a = "" then getTokenApiName token reg else some a
            | none => getTokenApiName token reg
          let issued_at :=
            match payload.iat with
            | some t => if t = 0 then none else some t
            | none => none
          let eis := (exp_ts - now).toNat
          some (.valid payload.sub api_name issued_at exp_ts eis
            (formatDuration (eis : Int)))

/-- The success shape of the `/auth/token` route. -/
structure TokenResponse where
  access_token : JWT
  token_type : String
  expires_in : Nat
  api_name : String
deriving DecidableEq, Repr

/-- The `login` route of `routes.py`: credential check collapsing unknown
user, wrong password and disabled account into one 401, then issuance. -/
def login (cfg : Config) (now : Int) (jti : String)
    (username password : String) (reg : Registry) :
    Except HTTPError TokenResponse × Registry :=
  if !(verifyCredentials cfg username password) then
    (.error ⟨401, "Invalid username or password"⟩, reg)
  else
    match createAccessToken cfg now jti username reg with
    | (.error e, reg') => (.error e, reg')
    | (.ok (t, ei, an), reg') =>
        (.ok { access_token := t, token_type := "bearer", expires_in := ei,
               api_name := an }, reg')

/-! ### Spec-side views of the registry state -/

/-- The bucket of records currently stored for a user (possibly including
physically present but expired records). -/
def userBucket (username : String) (reg : Registry) : List (JWT × TokenInfo) :=
  (findVal username reg).getD []

/-- A user's currently-live records: the stored records whose expiry is
strictly in the future (the survivors of `_cleanup_expired_tokens`). -/
def liveBucket (now : Int) (username : String) (reg : Registry) :
    List (JWT × TokenInfo) :=
  (userBucket username reg).filter fun p => now < p.2.expiry

/-- Modelled from the spec (§6), word for word: given total remaining
seconds S, if S ≤ 0 render "expired"; else compute days = S div 86400,
hours = (S mod 86400) div 3600, minutes = (S mod 3600) div 60; if all three
are zero render "&lt;1m", else render the space-joined nonzero components in
order "(d)d (h)h (m)m". -/
def formatDurationSpec (S : Int) : String :=
  if S ≤ 0 then "expired"
  else
    let days := S.toNat / 86400
    let hours := (S.toNat % 86400) / 3600
    let minutes := (S.toNat % 3600) / 60
    if days = 0 ∧ hours = 0 ∧ minutes = 0 then "<1m"
    else
      String.intercalate " "
        ((if days > 0 then [toString days ++ "d"] else []) ++
         (if hours > 0 then [toString hours ++ "h"] else []) ++
         (if minutes > 0 then [toString minutes ++ "m"] else []))

/-! ### Concrete fixtures used by the witness theorems -/

/-- A four-user credential store: "alice" unlimited, "bob" limited to 3,
"carol" limited to 2, "dan" unlimited but disabled. -/
def fixCfg : Config :=
  ⟨"k", 60,
   [("alice", .full ⟨some "pw", some 0, some true⟩),
    ("bob", .full ⟨some "pw", some 3, some true⟩),
    ("carol", .full ⟨some "pw", some 2, some true⟩),
    ("dan", .full ⟨some "pw", some 0, some false⟩)]⟩

/-- A token fixture signed with `fixCfg`'s key. -/
def fixTok (user : String) (expiry : Int) (jti : String) (slot : String) :
    JWT :=
  ⟨⟨some user, some expiry, some 1, jti, some slot⟩, "k"⟩

/-- A registry record fixture for `fixTok`. -/
def fixRec (user : String) (expiry : Int) (jti : String) (slot : String) :
    JWT × TokenInfo :=
  (fixTok user expiry jti slot, ⟨slot, expiry, 1, fixTok user expiry jti slot⟩)

/-- Registry fixture: "alice" holds two live tokens (expiry 500),
"carol" holds two live tokens, "bob" holds API_1 (live), API_2 (expired at
time 100) and API_3 (live). -/
def fixReg : Registry :=
  [("alice", [fixRec "alice" 500 "ja1" "API_1", fixRec "alice" 500 "ja2" "API_2"]),
   ("carol", [fixRec "carol" 500 "jc1" "API_1", fixRec "carol" 500 "jc2" "API_2"]),
   ("bob", [fixRec "bob" 500 "jb1" "API_1", fixRec "bob" 50 "jb2" "API_2",
            fixRec "bob" 500 "jb3" "API_3"])]

/-! ### Helper lemmas -/

theorem findVal_dictInsert_self {α β : Type} [DecidableEq α] (k : α) (v : β)
    (l : List (α × β)) : findVal k (dictInsert k v l) = some v := by
  induction l with
  | nil => simp [dictInsert, findVal]
  | cons hd tl ih =>
      by_cases h : hd.1 = k
      · simp [dictInsert, h, findVal]
      · simp [dictInsert, h, findVal, ih]

theorem userBucket_cleanup (now : Int) (username : String) (reg : Registry) :
    userBucket username (cleanupExpiredTokens now username reg) =
      liveBucket now username reg := by
  unfold cleanupExpiredTokens liveBucket userBucket
  cases h : findVal username reg with
  | none => simp [h]
  | some toks => simp [h, findVal_dictInsert_self]

theorem countActiveTokens_eq (now : Int) (username : String) (reg : Registry) :
    countActiveTokens now username reg =
      ((liveBucket now username reg).length,
        cleanupExpiredTokens now username reg) := by
  unfold countActiveTokens
  have h := userBucket_cleanup now username reg
  unfold userBucket at h
  simp [h]

theorem pyFalsy_false_of_pos_limit {uc : UserDict} {N : Int}
    (hN : uc.token_limit.getD 0 = N) (h0 : 0 < N) : uc.pyFalsy = false := by
  unfold UserDict.pyFalsy
  cases ht : uc.token_limit with
  | none => rw [ht] at hN; simp at hN; omega
  | some v => simp [ht]

theorem firstAvailable_some {used l : List Nat} {i : Nat}
    (h : firstAvailable used l = some i) : i ∈ l ∧ i ∉ used := by
  induction l with
  | nil => simp [firstAvailable] at h
  | cons hd tl ih =>
      by_cases hm : hd ∈ used
      · simp only [firstAvailable, if_pos hm] at h
        obtain ⟨h1, h2⟩ := ih h
        exact ⟨List.mem_cons_of_mem _ h1, h2⟩
      · simp only [firstAvailable, if_neg hm, Option.some.injEq] at h
        subst h
        exact ⟨List.mem_cons_self _ _, hm⟩

theorem firstAvailable_isSome {used l : List Nat}
    (h : ∃ i ∈ l, i ∉ used) : (firstAvailable used l).isSome := by
  induction l with
  | nil => simp at h
  | cons hd tl ih =>
      by_cases hm : hd ∈ used
      · simp only [firstAvailable, if_pos hm]
        apply ih
        obtain ⟨i, hi, hni⟩ := h
        rcases List.mem_cons.mp hi with rfl | hi
        · exact absurd hm hni
        · exact ⟨i, hi, hni⟩
      · simp [firstAvailable, if_neg hm]

theorem firstAvailable_range'_min (used : List Nat) :
    ∀ (n s i : Nat), firstAvailable used (List.range' s n) = some i →
      ∀ m, s ≤ m → m < i → m ∈ used := by
  intro n
  induction n with
  | zero => intro s i h; simp [List.range', firstAvailable] at h
  | succ n ih =>
      intro s i h m hsm hmi
      rw [List.range'_succ] at h
      by_cases hm : s ∈ used
      · simp only [firstAvailable, if_pos hm] at h
        rcases Nat.eq_or_lt_of_le hsm with rfl | hlt
        · exact hm
        · exact ih (s + 1) i h m hlt hmi
      · simp only [firstAvailable, if_neg hm, Option.some.injEq] at h
        omega

theorem exists_unused_of_short {used : List Nat} (h : used.length < 99) :
    ∃ i ∈ List.range' 1 99, i ∉ used := by
  by_contra hc
  push_neg at hc
  have hsub : (List.range' 1 99).toFinset ⊆ used.toFinset := by
    intro i hi
    rw [List.mem_toFinset] at hi ⊢
    exact hc i hi
  have h1 : (List.range' 1 99).toFinset.card = 99 := by
    rw [List.toFinset_card_of_nodup (List.nodup_range' 1 99)]
    simp [List.length_range']
  have h2 : used.toFinset.card ≤ used.length := List.toFinset_card_le used
  have := Finset.card_le_card hsub
  omega

/-- Claim C4, as stated, is false at input 90000: the code renders 90000
seconds as "1d 1h" (the zero minutes component is suppressed like every
other zero component), not "1d 1h 0m". -/
theorem formatDuration_90000_counterexample :
    ¬ (formatDuration 0 = "expired" ∧ formatDuration 45 = "<1m" ∧
       formatDuration 3661 = "1h 1m" ∧ formatDuration 90000 = "1d 1h 0m" ∧
       formatDuration 86400 = "1d") := by
  intro h
  exact absurd h.2.2.2.1 (by decide)

/-- Claim C4 (amended): the duration formatter maps 0 seconds to "expired",
45 seconds to "&lt;1m", 3661 seconds to "1h 1m", 90000 seconds to "1d 1h"
(the zero minutes component suppressed), and exactly 86400 seconds to "1d"
with the zero hours and minutes components suppressed. -/
theorem formatDuration_boundary_cases :
    formatDuration 0 = "expired" ∧ formatDuration 45 = "<1m" ∧
    formatDuration 3661 = "1h 1m" ∧ formatDuration 90000 = "1d 1h" ∧
    formatDuration 86400 = "1d" := by
  refine ⟨by decide, by decide, by decide, by decide, by decide⟩

/-- Claim C5: for every integer S the duration formatter agrees with the
spec's rule — "expired" for S ≤ 0, otherwise the space-joined nonzero
day/hour/minute components in order, "&lt;1m" when all three are zero, and
never a seconds component. -/
theorem formatDuration_eq_spec (S : Int) :
    formatDuration S = formatDurationSpec S := by
  unfold formatDuration formatDurationSpec
  split
  · rfl
  · by_cases hd : S.toNat / 86400 = 0 <;>
    by_cases hh : S.toNat % 86400 / 3600 = 0 <;>
    by_cases hm : S.toNat % 3600 / 60 = 0 <;>
    simp [hd, hh, hm, Nat.pos_of_ne_zero, String.intercalate]

/-- Claim C8: a login attempt with a username absent from the credential
store and one with an existing enabled username but a wrong password
produce the identical Unauthorized failure shape (same status code, same
detail, registry untouched), revealing nothing about which check failed. -/
theorem login_unauthorized_indistinguishable
    (cfg : Config) (now : Int) (jti : String) (reg : Registry)
    (u₁ p₁ u₂ p₂ : String) (uc : UserDict) (pw : String)
    (h₁ : getUserConfig cfg u₁ = none)
    (h₂ : getUserConfig cfg u₂ = some uc)
    (h₃ : uc.enabled.getD true = true)
    (h₄ : uc.password = some pw)
    (h₅ : pw ≠ p₂) :
    login cfg now jti u₁ p₁ reg =
      (.error ⟨401, "Invalid username or password"⟩, reg) ∧
    login cfg now jti u₂ p₂ reg =
      (.error ⟨401, "Invalid username or password"⟩, reg) := by
  constructor
  · unfold login verifyCredentials
    rw [h₁]
    simp
  · unfold login verifyCredentials
    rw [h₂]
    simp [h₃, h₄, h₅]

/-- Concrete instance of C8: the store knows only "alice" (enabled,
password "pw"); logging in as the unknown "bob" and as "alice" with the
wrong password "nope" yield the same 401 response. -/
theorem login_unauthorized_indistinguishable_witness :
    login ⟨"k", 60, [("alice", .full ⟨some "pw", some 5, some true⟩)]⟩ 100
        "j" "bob" "x" [] =
      (.error ⟨401, "Invalid username or password"⟩, []) ∧
    login ⟨"k", 60, [("alice", .full ⟨some "pw", some 5, some true⟩)]⟩ 100
        "j" "alice" "nope" [] =
      (.error ⟨401, "Invalid username or password"⟩, []) :=
  login_unauthorized_indistinguishable _ 100 "j" [] "bob" "x" "alice" "nope"
    ⟨some "pw", some 5, some true⟩ "pw" (by decide) (by decide) (by decide)
    (by decide) (by decide)

/-- One successful mint: steps 4–8 of `create_access_token` always return
a token (slot assignment, minting and registration cannot fail). -/
theorem mintAndRegister_ok (cfg : Config) (now : Int) (jti username : String)
    (reg : Registry) :
    ∃ r reg', mintAndRegister cfg now jti username reg = (.ok r, reg') := by
  unfold mintAndRegister
  rcases hg : getNextApiName now username reg with ⟨an, reg₂⟩
  exact ⟨_, _, rfl⟩

/-- Claim C9: for a user with a (non-empty, hence Python-truthy) credential
record with token_limit = 0, issuance always succeeds (never RateLimited,
whatever the live count) and status reports limit and remaining as the
"unlimited" sentinel; with token_limit = L > 0 status reports limit L and
remaining L minus the active count, both numeric. -/
theorem unlimited_tokens_and_status
    (cfg : Config) (now : Int) (jti username : String) (reg : Registry)
    (uc : UserDict) (hu : getUserConfig cfg username = some uc)
    (hfal : uc.pyFalsy = false) :
    (uc.token_limit.getD 0 = 0 →
      (∃ r reg', createAccessToken cfg now jti username reg = (.ok r, reg')) ∧
      (getUserTokenStatus cfg now username reg).1 =
        .ok ⟨username, (liveBucket now username reg).length,
             .unlimited, .unlimited⟩) ∧
    (∀ L : Int, uc.token_limit.getD 0 = L → 0 < L →
      (getUserTokenStatus cfg now username reg).1 =
        .ok ⟨username, (liveBucket now username reg).length, .num L,
             .num (L - (liveBucket now username reg).length)⟩) := by
  have hbucket := userBucket_cleanup now username reg
  unfold userBucket at hbucket
  constructor
  · intro h0
    constructor
    · unfold createAccessToken
      rw [hu]
      simp only [hfal, Bool.false_eq_true, if_false, h0, gt_iff_lt,
        lt_self_iff_false]
      exact mintAndRegister_ok cfg now jti username reg
    · unfold getUserTokenStatus
      rw [hu]
      simp [hfal, h0, hbucket]
  · intro L hL hLpos
    unfold getUserTokenStatus
    rw [hu]
    simp [hfal, hL, hLpos, hbucket]

/-- Concrete instance of C9: "alice" has token_limit 0 and two live tokens,
so issuance succeeds and status reports "unlimited" twice; "bob" has limit
3, so status reports the numeric limit and remainder. -/
theorem unlimited_tokens_and_status_witness :
    ((∃ r reg', createAccessToken fixCfg 100 "j" "alice" fixReg = (.ok r, reg')) ∧
      (getUserTokenStatus fixCfg 100 "alice" fixReg).1 =
        .ok ⟨"alice", (liveBucket 100 "alice" fixReg).length,
             .unlimited, .unlimited⟩) ∧
    (getUserTokenStatus fixCfg 100 "bob" fixReg).1 =
      .ok ⟨"bob", (liveBucket 100 "bob" fixReg).length, .num 3,
           .num (3 - (liveBucket 100 "bob" fixReg).length)⟩ :=
  ⟨(unlimited_tokens_and_status fixCfg 100 "j" "alice" fixReg
      ⟨some "pw", some 0, some true⟩ (by decide) (by decide)).1 (by decide),
   (unlimited_tokens_and_status fixCfg 100 "j" "bob" fixReg
      ⟨some "pw", some 3, some true⟩ (by decide) (by decide)).2 3 (by decide)
     (by decide)⟩

/-- Claim C6: for a token with a valid signature, a present unexpired
expiry claim and a subject known to the store, validation returns the
subject username exactly when the subject's record is enabled at the time
of the call, and fails with the distinct "account disabled" error when it
is disabled — the flag is read from the configuration on every call, so
the same unchanged token flips outcome with the flag. -/
theorem getCurrentUser_disabled_check
    (cfg : Config) (now : Int) (token : JWT) (username : String)
    (uc : UserDict) (e : Int)
    (hk : token.key = cfg.secretKey)
    (hs : token.payload.sub = some username)
    (he : token.payload.exp = some e)
    (hexp : now ≤ e)
    (hu : getUserConfig cfg username = some uc) :
    (uc.enabled.getD true = true →
      getCurrentUser cfg now token = .ok username) ∧
    (uc.enabled.getD true = false →
      getCurrentUser cfg now token =
        .error ⟨401, "User account is disabled"⟩) ∧
    (⟨401, "User account is disabled"⟩ : HTTPError) ≠ credentialsException := by
  have hne : ¬ e < now := by omega
  have hdec : jwtDecode token cfg.secretKey now = .ok token.payload := by
    unfold jwtDecode
    rw [if_pos hk, he]
    simp [hne]
  refine ⟨?_, ?_, by decide⟩
  · intro hen
    unfold getCurrentUser
    rw [hdec]
    simp [hs, hu, hen]
  · intro hen
    unfold getCurrentUser
    rw [hdec]
    simp [hs, hu, hen]

/-- Concrete instance of C6: the same unexpired token text, presented for
the enabled user "bob" and for the disabled user "dan": introspection
accepts the former and fails the latter with the distinct disabled error. -/
theorem getCurrentUser_disabled_check_witness :
    (getCurrentUser fixCfg 100 (fixTok "bob" 500 "jb9" "API_1") = .ok "bob" ∧
     (⟨401, "User account is disabled"⟩ : HTTPError) ≠ credentialsException) ∧
    getCurrentUser fixCfg 100 (fixTok "dan" 500 "jd9" "API_1") =
      .error ⟨401, "User account is disabled"⟩ :=
  ⟨⟨(getCurrentUser_disabled_check fixCfg 100 (fixTok "bob" 500 "jb9" "API_1")
      "bob" ⟨some "pw", some 3, some true⟩ 500 (by decide) (by decide)
      (by decide) (by decide) (by decide)).1 (by decide),
    (getCurrentUser_disabled_check fixCfg 100 (fixTok "bob" 500 "jb9" "API_1")
      "bob" ⟨some "pw", some 3, some true⟩ 500 (by decide) (by decide)
      (by decide) (by decide) (by decide)).2.2⟩,
   (getCurrentUser_disabled_check fixCfg 100 (fixTok "dan" 500 "jd9" "API_1")
      "dan" ⟨some "pw", some 0, some false⟩ 500 (by decide) (by decide)
      (by decide) (by decide) (by decide)).2.1 (by decide)⟩

/-- Claim C10: when the signature verification step (`jwt.decode`) succeeds
and the expiry claim is present, inspection returns the valid shape even
when the payload lacks the "iat" claim, with issued_at the null value; a
missing iat never makes inspection fail. -/
theorem getTokenInfo_missing_iat
    (cfg : Config) (now : Int) (token : JWT) (reg : Registry)
    (payload : JWTPayload) (e : Int)
    (hd : jwtDecode token cfg.secretKey now = .ok payload)
    (he : payload.exp = some e)
    (hi : payload.iat = none) :
    ∃ an, getTokenInfo cfg now token reg =
      some (.valid payload.sub an none e (e - now).toNat
        (formatDuration ((e - now).toNat : Int))) := by
  unfold getTokenInfo
  rw [hd]
  cases ha : payload.api_name with
  | none => exact ⟨getTokenApiName token reg, by simp [he, hi, ha]⟩
  | some a =>
      by_cases haz : a = ""
      · exact ⟨getTokenApiName token reg, by simp [he, hi, ha, haz]⟩
      · exact ⟨some a, by simp [he, hi, ha, haz]⟩

/-- Concrete instance of C10: a well-signed, unexpired token whose payload
has an exp claim but no iat claim is inspected as valid with a null
issued_at. -/
theorem getTokenInfo_missing_iat_witness :
    ∃ an, getTokenInfo fixCfg 100
        ⟨⟨some "bob", some 500, none, "jx", some "API_1"⟩, "k"⟩ fixReg =
      some (.valid (some "bob") an none 500 ((500 : Int) - 100).toNat
        (formatDuration (((500 : Int) - 100).toNat : Int))) :=
  getTokenInfo_missing_iat fixCfg 100
    ⟨⟨some "bob", some 500, none, "jx", some "API_1"⟩, "k"⟩ fixReg
    ⟨some "bob", some 500, none, "jx", some "API_1"⟩ 500
    (by rfl) (by decide) (by decide)

/-- Issuance succeeds whenever the live count is strictly below the
configured positive-or-not limit bound `N`. -/
theorem createAccessToken_ok_of_capacity
    (cfg : Config) (now : Int) (jti username : String) (reg : Registry)
    (uc : UserDict) (N : Int)
    (hu : getUserConfig cfg username = some uc)
    (hN : uc.token_limit.getD 0 = N)
    (hcap : ((liveBucket now username reg).length : Int) < N) :
    ∃ r reg', createAccessToken cfg now jti username reg = (.ok r, reg') := by
  have h0 : (0 : Int) < N := by omega
  have hfal : uc.pyFalsy = false := pyFalsy_false_of_pos_limit hN h0
  unfold createAccessToken
  rw [hu]
  simp only [hfal, Bool.false_eq_true, if_false, hN, gt_iff_lt, h0, if_true,
    countActiveTokens_eq]
  rw [if_neg (by omega)]
  exact mintAndRegister_ok cfg now jti username
    (cleanupExpiredTokens now username reg)

/-- Claim C1: for a user whose record carries token_limit = N > 0, issuance
succeeds while the live count is below N, and at or above N it fails with
the 429 RateLimited error carrying the current live count and the limit,
with the sweep leaving exactly the live records registered. -/
theorem createAccessToken_limit_enforcement
    (cfg : Config) (now : Int) (jti username : String) (reg : Registry)
    (uc : UserDict) (N : Int)
    (hu : getUserConfig cfg username = some uc)
    (hN : uc.token_limit.getD 0 = N)
    (hNpos : 0 < N) :
    (((liveBucket now username reg).length : Int) < N →
      ∃ r reg', createAccessToken cfg now jti username reg = (.ok r, reg')) ∧
    (N ≤ ((liveBucket now username reg).length : Int) →
      createAccessToken cfg now jti username reg =
        (.error ⟨429, rateLimitedDetail (liveBucket now username reg).length N⟩,
          cleanupExpiredTokens now username reg) ∧
      userBucket username (cleanupExpiredTokens now username reg) =
        liveBucket now username reg) := by
  constructor
  · exact fun hcap =>
      createAccessToken_ok_of_capacity cfg now jti username reg uc N hu hN hcap
  · intro hfull
    refine ⟨?_, userBucket_cleanup now username reg⟩
    have hfal : uc.pyFalsy = false := pyFalsy_false_of_pos_limit hN hNpos
    unfold createAccessToken
    rw [hu]
    simp only [hfal, Bool.false_eq_true, if_false, hN, gt_iff_lt, hNpos,
      if_true, countActiveTokens_eq]
    rw [if_pos (by omega)]

/-- Concrete instance of C1: "carol" has token_limit 2 and two live tokens
at time 100, so a third issuance is rejected with the 429 error carrying
count 2 and limit 2, and both live tokens stay registered; with one of them
expired at time 600 ... 1000 the count is below the limit and issuance
succeeds. -/
theorem createAccessToken_limit_enforcement_witness :
    (createAccessToken fixCfg 100 "j" "carol" fixReg =
      (.error ⟨429, rateLimitedDetail (liveBucket 100 "carol" fixReg).length 2⟩,
        cleanupExpiredTokens 100 "carol" fixReg) ∧
     userBucket "carol" (cleanupExpiredTokens 100 "carol" fixReg) =
       liveBucket 100 "carol" fixReg) ∧
    (∃ r reg', createAccessToken fixCfg 1000 "j" "carol" fixReg =
      (.ok r, reg')) :=
  ⟨(createAccessToken_limit_enforcement fixCfg 100 "j" "carol" fixReg
      ⟨some "pw", some 2, some true⟩ 2 (by decide) (by decide) (by decide)).2
      (by decide),
   (createAccessToken_limit_enforcement fixCfg 1000 "j" "carol" fixReg
      ⟨some "pw", some 2, some true⟩ 2 (by decide) (by decide) (by decide)).1
      (by decide)⟩

/-- The two complementary sweeps of a bucket partition its length. -/
theorem live_dead_partition (now : Int) (l : List (JWT × TokenInfo)) :
    (l.filter fun p => now < p.2.expiry).length +
      (l.filter fun p => p.2.expiry ≤ now).length = l.length := by
  induction l with
  | nil => simp
  | cons hd tl ih =>
      by_cases h : now < hd.2.expiry
      · have h' : ¬ hd.2.expiry ≤ now := by omega
        simp [List.filter_cons, h, h']
        omega
      · have h' : hd.2.expiry ≤ now := by omega
        simp [List.filter_cons, h, h']
        omega

/-- Claim C3: the cleanup sweep run by any of the four registry accesses
(count, slot assignment, listing, status) removes exactly the records whose
expiry has passed: the surviving bucket is the live bucket (so the count
drops by one per expired record), unexpired records are never removed, each
of the four operations leaves the registry in exactly the swept state, and
issuance succeeds again whenever the live count is back under the limit. -/
theorem registry_sweep_spec
    (cfg : Config) (now : Int) (username jti : String) (reg : Registry) :
    userBucket username (cleanupExpiredTokens now username reg) =
      liveBucket now username reg ∧
    (∀ p ∈ userBucket username reg, now < p.2.expiry →
      p ∈ userBucket username (cleanupExpiredTokens now username reg)) ∧
    (liveBucket now username reg).length +
      ((userBucket username reg).filter fun p => p.2.expiry ≤ now).length =
      (userBucket username reg).length ∧
    countActiveTokens now username reg =
      ((liveBucket now username reg).length,
        cleanupExpiredTokens now username reg) ∧
    (getNextApiName now username reg).2 =
      cleanupExpiredTokens now username reg ∧
    (getUserTokens now username reg).2 =
      cleanupExpiredTokens now username reg ∧
    (getUserTokenStatus cfg now username reg).2 =
      cleanupExpiredTokens now username reg ∧
    (∀ (uc : UserDict) (N : Int), getUserConfig cfg username = some uc →
      uc.token_limit.getD 0 = N →
      ((liveBucket now username reg).length : Int) < N →
      ∃ r reg', createAccessToken cfg now jti username reg = (.ok r, reg')) := by
  refine ⟨userBucket_cleanup now username reg, ?_, ?_, ?_, ?_, ?_, ?_, ?_⟩
  · intro p hp hlive
    rw [userBucket_cleanup now username reg]
    unfold liveBucket
    rw [List.mem_filter]
    exact ⟨hp, by simpa using hlive⟩
  · exact live_dead_partition now (userBucket username reg)
  · exact countActiveTokens_eq now username reg
  · unfold getNextApiName
    cases h : findVal username (cleanupExpiredTokens now username reg) with
    | none => simp [h]
    | some toks =>
        simp only [h]
        cases firstAvailable (usedNumbers toks) (List.range' 1 99) <;> rfl
  · unfold getUserTokens
    cases h : findVal username (cleanupExpiredTokens now username reg) with
    | none => simp [h]
    | some toks => simp [h]
  · unfold getUserTokenStatus
    cases h : getUserConfig cfg username with
    | none => simp [h]
    | some uc =>
        by_cases hf : uc.pyFalsy = true <;> simp [h, hf]
  · intro uc N hu hN hcap
    exact createAccessToken_ok_of_capacity cfg now jti username reg uc N hu hN
      hcap

/-- Concrete instance of C3, at the "bob" bucket of the registry fixture
(API_2 expired at time 100, API_1 and API_3 live). -/
theorem registry_sweep_spec_witness :
    userBucket "bob" (cleanupExpiredTokens 100 "bob" fixReg) =
      liveBucket 100 "bob" fixReg ∧
    (∀ p ∈ userBucket "bob" fixReg, (100 : Int) < p.2.expiry →
      p ∈ userBucket "bob" (cleanupExpiredTokens 100 "bob" fixReg)) ∧
    (liveBucket 100 "bob" fixReg).length +
      ((userBucket "bob" fixReg).filter fun p => p.2.expiry ≤ (100 : Int)).length =
      (userBucket "bob" fixReg).length ∧
    countActiveTokens 100 "bob" fixReg =
      ((liveBucket 100 "bob" fixReg).length,
        cleanupExpiredTokens 100 "bob" fixReg) ∧
    (getNextApiName 100 "bob" fixReg).2 =
      cleanupExpiredTokens 100 "bob" fixReg ∧
    (getUserTokens 100 "bob" fixReg).2 =
      cleanupExpiredTokens 100 "bob" fixReg ∧
    (getUserTokenStatus fixCfg 100 "bob" fixReg).2 =
      cleanupExpiredTokens 100 "bob" fixReg ∧
    (∀ (uc : UserDict) (N : Int), getUserConfig fixCfg "bob" = some uc →
      uc.token_limit.getD 0 = N →
      ((liveBucket 100 "bob" fixReg).length : Int) < N →
      ∃ r reg', createAccessToken fixCfg 100 "j" "bob" fixReg =
        (.ok r, reg')) :=
  registry_sweep_spec fixCfg 100 "bob" "j" fixReg

/-- A true credential check implies the user exists and is enabled. -/
theorem verifyCredentials_true_elim {cfg : Config} {u p : String}
    (hv : verifyCredentials cfg u p = true) :
    ∃ uc, getUserConfig cfg u = some uc ∧ uc.enabled.getD true = true := by
  unfold verifyCredentials at hv
  cases hg : getUserConfig cfg u with
  | none => rw [hg] at hv; simp at hv
  | some uc =>
      rw [hg] at hv
      dsimp only at hv
      refine ⟨uc, rfl, ?_⟩
      by_cases he : uc.enabled.getD true = true
      · exact he
      · simp [he] at hv

/-- Every assigned slot name has the shape `API_` followed by a suffix. -/
theorem getNextApiName_shape (now : Int) (username : String) (reg : Registry) :
    ∃ t, (getNextApiName now username reg).1 = "API_" ++ t := by
  unfold getNextApiName
  cases h : findVal username (cleanupExpiredTokens now username reg) with
  | none => exact ⟨"1", by simp [h]⟩
  | some toks =>
      cases h2 : firstAvailable (usedNumbers toks) (List.range' 1 99) with
      | none =>
          exact ⟨toString ((usedNumbers toks).dedup.length + 1), by simp [h, h2]⟩
      | some i => exact ⟨toString i, by simp [h, h2]⟩

/-- Shape of a successfully minted token: the claims embed the subject, the
computed expiry, the issue instant, the supplied jti and the assigned slot
name, signed with the configured key. -/
theorem mintAndRegister_shape {cfg : Config} {now : Int}
    {jti username : String} {reg : Registry} {r : JWT × Nat × String}
    {reg' : Registry}
    (h : mintAndRegister cfg now jti username reg = (.ok r, reg')) :
    ∃ an t, an = "API_" ++ t ∧
      r = (⟨⟨some username, some (now + (cfg.expireMinutes * 60 : Nat)),
             some now, jti, some an⟩, cfg.secretKey⟩,
           cfg.expireMinutes * 60, an) := by
  unfold mintAndRegister at h
  rcases hg : getNextApiName now username reg with ⟨an, reg₂⟩
  rw [hg] at h
  dsimp only at h
  injection h with h1 h2
  injection h1 with h1
  obtain ⟨t, ht⟩ := getNextApiName_shape now username reg
  rw [hg] at ht
  exact ⟨an, t, ht, h1.symm⟩

/-- Shape of any successful issuance result. -/
theorem createAccessToken_ok_shape {cfg : Config} {now : Int}
    {jti username : String} {reg : Registry} {r : JWT × Nat × String}
    {reg' : Registry}
    (h : createAccessToken cfg now jti username reg = (.ok r, reg')) :
    ∃ an t, an = "API_" ++ t ∧
      r = (⟨⟨some username, some (now + (cfg.expireMinutes * 60 : Nat)),
             some now, jti, some an⟩, cfg.secretKey⟩,
           cfg.expireMinutes * 60, an) := by
  unfold createAccessToken at h
  cases hu : getUserConfig cfg username with
  | none => rw [hu] at h; simp at h
  | some uc =>
      rw [hu] at h
      dsimp only at h
      by_cases hfal : uc.pyFalsy = true
      · rw [if_pos hfal] at h
        simp at h
      rw [if_neg hfal] at h
      by_cases h0 : uc.token_limit.getD 0 > 0
      · rw [if_pos h0, countActiveTokens_eq] at h
        dsimp only at h
        by_cases hfull :
            uc.token_limit.getD 0 ≤ ((liveBucket now username reg).length : Int)
        · rw [if_pos hfull] at h
          simp at h
        · rw [if_neg hfull] at h
          exact mintAndRegister_shape h
      · rw [if_neg h0] at h
        exact mintAndRegister_shape h

/-- Shape of a successful login: the credentials verified and the response
wraps a freshly minted token whose claims carry the same username and the
assigned slot name. -/
theorem login_ok_shape {cfg : Config} {now : Int} {jti u p : String}
    {reg : Registry} {resp : TokenResponse} {reg' : Registry}
    (h : login cfg now jti u p reg = (.ok resp, reg')) :
    verifyCredentials cfg u p = true ∧
    ∃ an t, an = "API_" ++ t ∧
      resp = ⟨⟨⟨some u, some (now + (cfg.expireMinutes * 60 : Nat)),
               some now, jti, some an⟩, cfg.secretKey⟩,
              "bearer", cfg.expireMinutes * 60, an⟩ := by
  unfold login at h
  by_cases hv : verifyCredentials cfg u p = true
  · refine ⟨hv, ?_⟩
    simp only [hv, Bool.not_true, Bool.false_eq_true, if_false] at h
    rcases hc : createAccessToken cfg now jti u reg with ⟨res, reg''⟩
    rw [hc] at h
    cases res with
    | error e => simp at h
    | ok trip =>
        obtain ⟨t1, ei, an1⟩ := trip
        dsimp only at h
        injection h with h1 h2
        injection h1 with h1
        obtain ⟨an, t, hant, htrip⟩ := createAccessToken_ok_shape hc
        injection htrip with he1 he2
        injection he2 with he2 he3
        exact ⟨an, t, hant, by rw [← h1, he1, he2, he3]⟩
  · simp only [Bool.not_eq_true] at hv
    simp only [hv, Bool.not_false, if_true] at h
    simp at h

/-- Claim C7: issuing a token through login and then validating it returns
the same username that was passed in, and inspecting it (against any
registry) reports an api_name equal to the slot name returned at
issuance. -/
theorem issue_validate_inspect_roundtrip
    (cfg : Config) (now : Int) (jti u p : String) (reg : Registry)
    (resp : TokenResponse) (reg' : Registry)
    (h : login cfg now jti u p reg = (.ok resp, reg'))
    (now' : Int) (hnow : now' ≤ now + (resp.expires_in : Int)) :
    getCurrentUser cfg now' resp.access_token = .ok u ∧
    ∀ reg'' : Registry, ∃ ia ea eis eih,
      getTokenInfo cfg now' resp.access_token reg'' =
        some (.valid (some u) (some resp.api_name) ia ea eis eih) := by
  obtain ⟨hv, an, t, hant, hresp⟩ := login_ok_shape h
  obtain ⟨uc, hu, hen⟩ := verifyCredentials_true_elim hv
  subst hresp
  dsimp only at hnow ⊢
  have hdec : jwtDecode
      ⟨⟨some u, some (now + (cfg.expireMinutes * 60 : Nat)), some now, jti,
         some an⟩, cfg.secretKey⟩ cfg.secretKey now' =
      .ok ⟨some u, some (now + (cfg.expireMinutes * 60 : Nat)), some now, jti,
           some an⟩ := by
    unfold jwtDecode
    rw [if_pos rfl]
    dsimp only
    rw [if_neg (by omega)]
  constructor
  · unfold getCurrentUser
    rw [hdec]
    simp [hu, hen]
  · intro reg''
    have hanne : an ≠ "" := by
      rw [hant]
      intro hcon
      have hlen := congrArg String.length hcon
      rw [String.length_append] at hlen
      have h4 : ("API_" : String).length = 4 := rfl
      have h0 : ("" : String).length = 0 := rfl
      omega
    unfold getTokenInfo
    rw [hdec]
    dsimp only
    rw [if_neg hanne]
    exact ⟨_, _, _, _, rfl⟩

/-- Concrete instance of C7: "alice" logs in against an empty registry at
time 100, receives slot API_1 and a token expiring at 3700; validating at
time 100 returns "alice" and inspection reports api_name API_1. -/
theorem issue_validate_inspect_roundtrip_witness :
    getCurrentUser fixCfg 100
        ⟨⟨some "alice", some 3700, some 100, "jw", some "API_1"⟩, "k"⟩ =
      .ok "alice" ∧
    ∀ reg'' : Registry, ∃ ia ea eis eih,
      getTokenInfo fixCfg 100
          ⟨⟨some "alice", some 3700, some 100, "jw", some "API_1"⟩, "k"⟩
          reg'' =
        some (.valid (some "alice") (some "API_1") ia ea eis eih) :=
  issue_validate_inspect_roundtrip fixCfg 100 "jw" "alice" "pw" []
    ⟨⟨⟨some "alice", some 3700, some 100, "jw", some "API_1"⟩, "k"⟩,
     "bearer", 3600, "API_1"⟩
    [("alice",
      [(⟨⟨some "alice", some 3700, some 100, "jw", some "API_1"⟩, "k"⟩,
        ⟨"API_1", 3700, 100,
         ⟨⟨some "alice", some 3700, some 100, "jw", some "API_1"⟩, "k"⟩⟩)])]
    (by rfl) 100 (by decide)

/-- Parsing inverts rendering for every slot number the 1..99 scan can
return. -/
theorem apiNameNum_canon :
    ∀ n : Nat, n < 100 → apiNameNum ("API_" ++ toString n) = some n := by
  decide

/-- Claim C2: for a user with fewer than 99 currently-live tokens, the slot
name assigned at issuance is API_n where n is the lowest integer ≥ 1 whose
number is used by none of that user's live tokens; the assigned name
differs from every live slot name, so uniqueness of live slot names is
preserved (and a freed lower slot is reused before a fresh higher one). -/
theorem getNextApiName_lowest_free (now : Int) (username : String)
    (reg : Registry)
    (h99 : (liveBucket now username reg).length < 99) :
    ∃ n, 1 ≤ n ∧
      (getNextApiName now username reg).1 = "API_" ++ toString n ∧
      n ∉ usedNumbers (liveBucket now username reg) ∧
      (∀ m, 1 ≤ m → m < n → m ∈ usedNumbers (liveBucket now username reg)) ∧
      (∀ p ∈ liveBucket now username reg,
        p.2.api_name ≠ "API_" ++ toString n) ∧
      (((liveBucket now username reg).map fun p => p.2.api_name).Nodup →
        (("API_" ++ toString n) ::
          ((liveBucket now username reg).map fun p => p.2.api_name)).Nodup) := by
  cases hb : findVal username reg with
  | none =>
      have hclean : cleanupExpiredTokens now username reg = reg := by
        unfold cleanupExpiredTokens
        rw [hb]
      have hlb : liveBucket now username reg = [] := by
        unfold liveBucket userBucket
        rw [hb]
        rfl
      refine ⟨1, le_refl 1, ?_, ?_, ?_, ?_, ?_⟩
      · unfold getNextApiName
        rw [hclean]
        dsimp only
        rw [hb]
        rfl
      · rw [hlb]; simp [usedNumbers]
      · intro m h1 h2; omega
      · rw [hlb]; intro p hp; simp at hp
      · rw [hlb]; intro h; simp
  | some bucket =>
      have hclean : cleanupExpiredTokens now username reg =
          dictInsert username (bucket.filter fun p => now < p.2.expiry) reg := by
        unfold cleanupExpiredTokens
        rw [hb]
      have hlb : liveBucket now username reg =
          bucket.filter fun p => now < p.2.expiry := by
        unfold liveBucket userBucket
        rw [hb]
        rfl
      have hfv : findVal username (cleanupExpiredTokens now username reg) =
          some (liveBucket now username reg) := by
        rw [hclean, hlb]
        exact findVal_dictInsert_self _ _ _
      have hlen : (usedNumbers (liveBucket now username reg)).length < 99 := by
        have := List.length_filterMap_le
          (fun p : JWT × TokenInfo => apiNameNum p.2.api_name)
          (liveBucket now username reg)
        unfold usedNumbers
        omega
      obtain ⟨i, hir, hiu⟩ := exists_unused_of_short hlen
      have hsome := firstAvailable_isSome ⟨i, hir, hiu⟩
      obtain ⟨j, hj⟩ := Option.isSome_iff_exists.mp hsome
      obtain ⟨hjr, hju⟩ := firstAvailable_some hj
      obtain ⟨hj1, hj100⟩ := List.mem_range'_1.mp hjr
      have hfresh : ∀ p ∈ liveBucket now username reg,
          p.2.api_name ≠ "API_" ++ toString j := by
        intro p hp hcon
        apply hju
        unfold usedNumbers
        exact List.mem_filterMap.mpr
          ⟨p, hp, by rw [hcon]; exact apiNameNum_canon j (by omega)⟩
      refine ⟨j, hj1, ?_, hju, ?_, hfresh, ?_⟩
      · unfold getNextApiName
        dsimp only
        rw [hfv]
        dsimp only
        rw [hj]
      · exact fun m h1 h2 =>
          firstAvailable_range'_min (usedNumbers (liveBucket now username reg))
            99 1 j hj m h1 h2
      · intro hnd
        rw [List.nodup_cons]
        refine ⟨?_, hnd⟩
        intro hmem
        obtain ⟨p, hp, hpe⟩ := List.mem_map.mp hmem
        exact hfresh p hp hpe

/-- Concrete instance of C2, the spec's slot-reuse scenario: "bob" holds
API_1 (live), API_2 (expired at time 100) and API_3 (live); the next
issuance assigns API_2, not API_4, and that name collides with no live
slot. -/
theorem getNextApiName_lowest_free_witness :
    (getNextApiName 100 "bob" fixReg).1 = "API_2" ∧
    (∃ n, 1 ≤ n ∧
      (getNextApiName 100 "bob" fixReg).1 = "API_" ++ toString n ∧
      n ∉ usedNumbers (liveBucket 100 "bob" fixReg) ∧
      (∀ m, 1 ≤ m → m < n → m ∈ usedNumbers (liveBucket 100 "bob" fixReg)) ∧
      (∀ p ∈ liveBucket 100 "bob" fixReg,
        p.2.api_name ≠ "API_" ++ toString n) ∧
      (((liveBucket 100 "bob" fixReg).map fun p => p.2.api_name).Nodup →
        (("API_" ++ toString n) ::
          ((liveBucket 100 "bob" fixReg).map fun p => p.2.api_name)).Nodup)) :=
  ⟨by decide, getNextApiName_lowest_free 100 "bob" fixReg (by decide)⟩

end SmartCover
